import Mathlib

/-!
# Verification of the LunarBase integration SDK's fee and swap arithmetic

Shallow embedding of the pure arithmetic of `FeeCalculator`, `SwapSimulator`
and `DynamicFeeCalculator` (src/examples/src/services/*.ts).

Modelling conventions:
* TypeScript `bigint` amounts are modelled as `ℕ`.  All quantities handled by
  the embedded functions (amounts, reserves, fees in protocol bps, weights)
  are nonnegative, and under the preconditions carried by the theorems below
  (`weightIn ≤ BPS_DENOMINATOR`, fee capped at `BPS_DENOMINATOR - 1`) every
  subtraction in the source stays nonnegative, so `ℕ` truncated subtraction
  coincides with `bigint` subtraction and `ℕ` floor division coincides with
  `bigint` division (which truncates toward zero).
* `throw new Error(msg)` is modelled as `Except.error msg`.
* JavaScript timestamps (`number` holding integral seconds) are modelled as
  `Int`, since elapsed times may be negative.
-/

deriving instance DecidableEq for Except

/-- `FEE_CONSTANTS.BPS_DENOMINATOR` (src/examples/src/types/index.ts):
100% in the protocol's high-precision bps format. -/
def BPS_DENOMINATOR : ℕ := 1000000000

/-- `PRECISION = BigInt(1e18)`, the fixed-point scale used by the dynamic-fee
activity metric (`DynamicFeeCalculator`). -/
def PRECISION : ℕ := 10 ^ 18

/-- `ACTIVITY_SCALE = BigInt(1e16)` from
`DynamicFeeCalculator.activityToFeeBps`: one bps per `1e16` activity units. -/
def ACTIVITY_SCALE : ℕ := 10 ^ 16

/-- The `inFee` step shared by `FeeCalculator.calculateAmountOutWithFee` and
`FeeCalculator.calculateAmountInWithFee`: the fee is first capped at
`BPS_DEN - 1` (`Math.min(totalFeeBps, FEE_CONSTANTS.BPS_DENOMINATOR - 1)`),
then split onto the input side as `inFee = totalFee * weightIn / BPS_DEN`. -/
def inFeeOf (totalFeeBps weightIn : ℕ) : ℕ :=
  min totalFeeBps (BPS_DENOMINATOR - 1) * weightIn / BPS_DENOMINATOR

/-- `FeeCalculator.calculateAmountOutWithFee`
(src/examples/src/services/FeeCalculator.ts, lines 185-227).
Output amount after the five-step weighted fee split, with the three
`throw new Error` branches modelled as `Except.error`. -/
def calculateAmountOutWithFee (amountIn reserveIn reserveOut totalFeeBps weightIn : ℕ) :
    Except String ℕ :=
  if reserveIn = 0 ∨ reserveOut = 0 then .error "Insufficient liquidity" else
  let totalFee := min totalFeeBps (BPS_DENOMINATOR - 1)
  let inFee := totalFee * weightIn / BPS_DENOMINATOR
  let outFee := totalFee - inFee
  let inFeeMultiplier := BPS_DENOMINATOR - inFee
  let amountInAfterFee := amountIn * inFeeMultiplier / BPS_DENOMINATOR
  if amountInAfterFee = 0 then .error "Amount in too small" else
  let grossOut := amountInAfterFee * reserveOut / (reserveIn + amountInAfterFee)
  if grossOut = 0 then .error "Invalid gross output" else
  let outFeeMultiplier := BPS_DENOMINATOR - outFee
  .ok (grossOut * outFeeMultiplier / BPS_DENOMINATOR)

/-- `FeeCalculator.calculateAmountInWithFee`
(src/examples/src/services/FeeCalculator.ts, lines 240-288).
Required input for a desired output, rounding up at each inverse step
(`(x * d + d - 1) / d` and `(x + (q - 1)) / q` patterns from the source). -/
def calculateAmountInWithFee (amountOut reserveIn reserveOut totalFeeBps weightIn : ℕ) :
    Except String ℕ :=
  if reserveIn = 0 ∨ reserveOut = 0 then .error "Insufficient liquidity" else
  let totalFee := min totalFeeBps (BPS_DENOMINATOR - 1)
  let inFee := totalFee * weightIn / BPS_DENOMINATOR
  let outFee := totalFee - inFee
  let outFeeMultiplier := BPS_DENOMINATOR - outFee
  if outFeeMultiplier = 0 then .error "Fee too high" else
  let grossOut := (amountOut * BPS_DENOMINATOR + outFeeMultiplier - 1) / outFeeMultiplier
  if reserveOut ≤ grossOut then .error "Insufficient liquidity" else
  let amountInAfterFee :=
    (grossOut * reserveIn + (reserveOut - grossOut) - 1) / (reserveOut - grossOut)
  let inFeeMultiplier := BPS_DENOMINATOR - inFee
  if inFeeMultiplier = 0 then .error "Fee too high" else
  .ok ((amountInAfterFee * BPS_DENOMINATOR + inFeeMultiplier - 1) / inFeeMultiplier)

/-- `SwapSimulator.getAmountOut`
(src/examples/src/services/FeeCalculator.ts blob, lines 631-638):
constant-product output with no fees. -/
def getAmountOut (amountIn reserveIn reserveOut : ℕ) : Except String ℕ :=
  if reserveIn = 0 ∨ reserveOut = 0 then .error "Insufficient liquidity" else
  .ok (amountIn * reserveOut / (reserveIn + amountIn))

/-- `SwapSimulator.getAmountIn` (same blob, lines 648-655): constant-product
input with no fees; rounds up by adding `1n` to the floored quotient. -/
def getAmountIn (amountOut reserveIn reserveOut : ℕ) : Except String ℕ :=
  if reserveIn = 0 ∨ reserveOut = 0 ∨ reserveOut ≤ amountOut then
    .error "Insufficient liquidity"
  else
    .ok (reserveIn * amountOut / (reserveOut - amountOut) + 1)

/-- The five-step fee-split formula exactly as the specification states it
(spec §4.2), written from the spec's words for comparison with
`calculateAmountOutWithFee`: `inFee = totalFee * wIn / BPS_DEN`,
`outFee = totalFee - inFee`,
`amountInAfterFee = amountIn * (BPS_DEN - inFee) / BPS_DEN`,
`grossOut = amountInAfterFee * reserveOut / (reserveIn + amountInAfterFee)`,
`netOut = grossOut * (BPS_DEN - outFee) / BPS_DEN`, floor division at every
step.  `totalFee` is the already-capped fee (the spec caps it at
`BPS_DEN - 1` before the split). -/
def specNetOut (amountIn reserveIn reserveOut totalFee weightIn : ℕ) : ℕ :=
  let inFee := totalFee * weightIn / BPS_DENOMINATOR
  let outFee := totalFee - inFee
  let amountInAfterFee := amountIn * (BPS_DENOMINATOR - inFee) / BPS_DENOMINATOR
  let grossOut := amountInAfterFee * reserveOut / (reserveIn + amountInAfterFee)
  grossOut * (BPS_DENOMINATOR - outFee) / BPS_DENOMINATOR

/-- `DynamicFeeConfig` (src/examples/src/types/index.ts): per-pool dynamic fee
configuration.  `halfLife` is seconds (a JS `number`), modelled as `Int` so
that nonpositive values are representable as in the source's guards. -/
structure DynamicFeeConfig where
  maxCapBps : ℕ
  halfLife : Int
  enabled : Bool

/-- `DynamicFeeState` (src/examples/src/types/index.ts): latest on-chain
dynamic fee state for a pool. -/
structure DynamicFeeState where
  dynBps : ℕ
  activity : ℕ
  lastUpdate : Int

/-- Return value of `DynamicFeeCalculator.simulateFeeAfterSwap`. -/
structure SimulatedFee where
  newDynBps : ℕ
  newActivity : ℕ
  pulse : ℕ
  decayedActivity : ℕ
deriving DecidableEq

/-- `DynamicFeeCalculator.calculateDecayedActivity`
(src/examples/src/services/DynamicFeeCalculator.ts, lines 121-144).
No decay when `elapsed ≤ 0` or `halfLife ≤ 0`; otherwise the source scales
`activity` by `BigInt(Math.floor(Math.pow(2, -elapsed / halfLife) * 1e18))`
over `PRECISION = 1e18`.  The embedding models the double-precision factor on
the inputs where that computation is exact, namely when `halfLife` divides
`elapsed` so the exponent `k = elapsed / halfLife` is an exact integer: there
`Math.pow(2, -k) = 2⁻ᵏ` exactly, the product `2⁻ᵏ · 1e18 = 5¹⁸ · 2¹⁸⁻ᵏ` has a
42-bit significand and is an exact double, and its floor is `⌊1e18 / 2ᵏ⌋`.
The source's early `decayFactor < 1e-18 → 0` cutoff coincides with
`⌊1e18 / 2ᵏ⌋ = 0` (both happen exactly when `k ≥ 60`).  Theorems about this
function only instantiate it at such exact multiples. -/
def calculateDecayedActivity (activity : ℕ) (elapsed halfLife : Int) : ℕ :=
  if elapsed ≤ 0 ∨ halfLife ≤ 0 then activity
  else activity * (PRECISION / 2 ^ (elapsed / halfLife).toNat) / PRECISION

/-- `DynamicFeeCalculator.calculateSwapPulse` (lines 154-162):
`pulse = amountOut * 1e18 / reserveOut`, `0` when the reserve is zero. -/
def calculateSwapPulse (amountOut reserveOut : ℕ) : ℕ :=
  if reserveOut = 0 then 0 else amountOut * PRECISION / reserveOut

/-- `DynamicFeeCalculator.calculateNewActivity` (lines 171-174). -/
def calculateNewActivity (currentActivity pulse : ℕ) : ℕ :=
  currentActivity + pulse

/-- `DynamicFeeCalculator.activityToFeeBps` (lines 184-192):
`Math.min(Number(activity / ACTIVITY_SCALE), maxCapBps)`.  The `Number`
conversion of the `bigint` quotient is exact for quotients below `2⁵³`;
theorems carry that bound as a hypothesis. -/
def activityToFeeBps (activity maxCapBps : ℕ) : ℕ :=
  min (activity / ACTIVITY_SCALE) maxCapBps

/-- `DynamicFeeCalculator.simulateFeeAfterSwap` (lines 204-250). -/
def simulateFeeAfterSwap (state : DynamicFeeState) (config : DynamicFeeConfig)
    (amountOut reserveOut : ℕ) (currentTimestamp : Int) : SimulatedFee :=
  if ¬config.enabled then
    { newDynBps := 0, newActivity := 0, pulse := 0, decayedActivity := 0 }
  else
    let elapsed := currentTimestamp - state.lastUpdate
    let decayedActivity := calculateDecayedActivity state.activity elapsed config.halfLife
    let pulse := calculateSwapPulse amountOut reserveOut
    let newActivity := calculateNewActivity decayedActivity pulse
    { newDynBps := activityToFeeBps newActivity config.maxCapBps
      newActivity := newActivity
      pulse := pulse
      decayedActivity := decayedActivity }

/-- `DynamicFeeCalculator.getCurrentDynamicFee` (lines 258-287).  The chain
interactions are passed in as values: `latestEvent` is what
`getLatestDynamicFeeEvent` returned (`none` when no event was found) and
`currentTimestamp` is the latest block timestamp; the method returns `0` when
the config is disabled or no event exists, and otherwise decays the recorded
activity and converts it to bps. -/
def getCurrentDynamicFee (config : DynamicFeeConfig)
    (latestEvent : Option DynamicFeeState) (currentTimestamp : Int) : ℕ :=
  if ¬config.enabled then 0
  else
    match latestEvent with
    | none => 0
    | some state =>
        let elapsed := currentTimestamp - state.lastUpdate
        let decayedActivity :=
          calculateDecayedActivity state.activity elapsed config.halfLife
        activityToFeeBps decayedActivity config.maxCapBps

/-- Modelled from the spec: the authoritative Dynamic Fee Engine's decay step.
The engine itself is on-chain core code that is not part of src/ (src/ holds
only its ABIs and an explicitly floating-point off-chain mirror), and the spec
requires it to compute `decayedActivity = activity · 2^(−elapsed/halfLife)`
"deterministically (fixed-point power-of-two approximation), not via floating
point", with no decay when `elapsed ≤ 0` or `halfLife ≤ 0` (spec §4.4, §9).
This definition realises that: an integer power-of-two decay factor
`⌊PRECISION / 2ᵏ⌋` at the state's own `1e18` fixed-point scale, floor division
at every step, defined at integer numbers of half-lives `k = elapsed/halfLife`
(theorems instantiate it only where `halfLife` divides `elapsed`). -/
def authoritativeDecay (activity : ℕ) (elapsed halfLife : Int) : ℕ :=
  if elapsed ≤ 0 ∨ halfLife ≤ 0 then activity
  else activity * (PRECISION / 2 ^ (elapsed / halfLife).toNat) / PRECISION

/-- `DynamicFeeCalculator.estimateDecayTime` (lines 349-360), modelled only on
its exact branch: the source returns `0` when `currentFee ≤ targetFee` and
otherwise `Math.ceil(-Math.log2(targetFee / currentFee) * halfLife)` on IEEE
doubles; the transcendental branch is abstracted by the `decayPeriods`
oracle argument (the double value of `-Math.log2(target/current)`). -/
def estimateDecayTime (decayPeriods : ℚ) (currentFee targetFee : ℕ) (halfLife : ℚ) : ℚ :=
  if currentFee ≤ targetFee then 0 else ⌈decayPeriods * halfLife⌉

section DivLemmas

/-- A constant-product output never exceeds the output reserve:
`e * rOut / (rIn + e) ≤ rOut`. -/
lemma grossOut_le_reserveOut (e rIn rOut : ℕ) : e * rOut / (rIn + e) ≤ rOut := by
  rcases Nat.eq_zero_or_pos (rIn + e) with h | h
  · simp [h]
  · calc e * rOut / (rIn + e) ≤ (rIn + e) * rOut / (rIn + e) :=
          Nat.div_le_div_right (Nat.mul_le_mul_right _ (Nat.le_add_left e rIn))
    _ = rOut := Nat.mul_div_cancel_left _ h

/-- Floor-divided constant-product output preserves the reserve product:
`rIn * rOut ≤ (rIn + e) * (rOut - e * rOut / (rIn + e))`. -/
lemma cp_invariant (e rIn rOut : ℕ) :
    rIn * rOut ≤ (rIn + e) * (rOut - e * rOut / (rIn + e)) := by
  have h2 : e * rOut / (rIn + e) ≤ rOut := grossOut_le_reserveOut e rIn rOut
  have h1 : e * rOut / (rIn + e) * (rIn + e) ≤ e * rOut := Nat.div_mul_le_self _ _
  zify [h2]
  nlinarith [h1]

/-- The floored constant-product output is monotone in the effective input. -/
lemma grossOut_mono (rIn rOut : ℕ) {e₁ e₂ : ℕ} (h : e₁ ≤ e₂) :
    e₁ * rOut / (rIn + e₁) ≤ e₂ * rOut / (rIn + e₂) := by
  rcases Nat.eq_zero_or_pos (rIn + e₂) with h0 | h0
  · have : rIn + e₁ = 0 := by omega
    simp [this, h0]
  · rw [Nat.le_div_iff_mul_le h0]
    have hq : e₁ * rOut / (rIn + e₁) * (rIn + e₁) ≤ e₁ * rOut := Nat.div_mul_le_self _ _
    have hle : e₁ * rOut / (rIn + e₁) ≤ rOut := grossOut_le_reserveOut e₁ rIn rOut
    zify at hq hle ⊢
    nlinarith [hq, hle]

/-- Round-up division quotes enough: `x ≤ ((x + d - 1) / d) * d` when `0 < d`. -/
lemma le_ceilDiv_mul (x d : ℕ) (hd : 0 < d) : x ≤ (x + d - 1) / d * d := by
  have h1 := Nat.div_add_mod (x + d - 1) d
  have h2 : (x + d - 1) % d < d := Nat.mod_lt _ hd
  rw [Nat.mul_comm]
  zify [show 1 ≤ x + d by omega] at h1 h2 ⊢
  linarith

/-- Dividing by a smaller-or-equal multiplier then flooring never increases:
`a * m / B ≤ a` when `m ≤ B` and `0 < B`. -/
lemma mul_div_le_self_of_le (a m B : ℕ) (hm : m ≤ B) (hB : 0 < B) :
    a * m / B ≤ a := by
  calc a * m / B ≤ a * B / B := Nat.div_le_div_right (Nat.mul_le_mul_left _ hm)
    _ = a := Nat.mul_div_cancel _ hB

end DivLemmas

/-- Claim C1 (counterexample): at the spec's scenario inputs
`totalFee = 3_000_000`, `weightIn = 500_000_000` the input-side fee computed
by the source's fee-split step is `1_500_000`, not the claimed `150_000`. -/
theorem C1_counterexample :
    inFeeOf 3000000 500000000 = 1500000 ∧ inFeeOf 3000000 500000000 ≠ 150000 := by
  decide

/-- Whenever `calculateAmountOutWithFee` succeeds, its value is the five-step
formula applied to the capped fee. -/
lemma amountOut_ok_eq_spec (amountIn reserveIn reserveOut totalFeeBps weightIn n : ℕ)
    (h : calculateAmountOutWithFee amountIn reserveIn reserveOut totalFeeBps weightIn =
      Except.ok n) :
    n = specNetOut amountIn reserveIn reserveOut
          (min totalFeeBps (BPS_DENOMINATOR - 1)) weightIn := by
  simp only [calculateAmountOutWithFee, specNetOut] at h ⊢
  split_ifs at h with h1 h2 h3
  all_goals simp only [reduceCtorEq, Except.ok.injEq] at h
  exact h.symm

/-- Claim C1 (amended): whenever `calculateAmountOutWithFee` returns a value,
that value is exactly the five-step fee-split formula of spec §4.2 applied to
the capped fee `min totalFeeBps (BPS_DEN - 1)`, with integer floor division at
every step; and at the scenario `reserveIn = reserveOut = 100e18`,
`amountIn = 1e18`, `totalFee = 3_000_000`, `weightIn = 500_000_000` it yields
`inFee = outFee = 1_500_000`, `amountInAfterFee = 998_500_000 · 1e18 / 1e9`
and `netOut = 987_145_601_172_294_637 ≈ 0.98715e18`. -/
theorem C1_amountOut_formula :
    (∀ amountIn reserveIn reserveOut totalFeeBps weightIn n,
        calculateAmountOutWithFee amountIn reserveIn reserveOut totalFeeBps weightIn =
          Except.ok n →
        n = specNetOut amountIn reserveIn reserveOut
              (min totalFeeBps (BPS_DENOMINATOR - 1)) weightIn) ∧
    calculateAmountOutWithFee (10 ^ 18) (100 * 10 ^ 18) (100 * 10 ^ 18) 3000000 500000000 =
      Except.ok 987145601172294637 ∧
    inFeeOf 3000000 500000000 = 1500000 :=
  ⟨amountOut_ok_eq_spec, by decide, by decide⟩


/-- Claim C1 witness. -/
theorem C1_amountOut_formula_witness :
    calculateAmountOutWithFee 1000 100000 100000 300000 500000000 = Except.ok 988 ∧
    (988 : ℕ) = specNetOut 1000 100000 100000 (min 300000 (BPS_DENOMINATOR - 1)) 500000000 :=
  ⟨by decide, C1_amountOut_formula.1 1000 100000 100000 300000 500000000 988 (by decide)⟩

/-- The five-step net output never exceeds the output reserve. -/
lemma specNetOut_le_reserveOut (amountIn reserveIn reserveOut totalFee weightIn : ℕ) :
    specNetOut amountIn reserveIn reserveOut totalFee weightIn ≤ reserveOut := by
  have hB : 0 < BPS_DENOMINATOR := by norm_num [BPS_DENOMINATOR]
  simp only [specNetOut]
  exact le_trans
    (mul_div_le_self_of_le _ _ _ (Nat.sub_le _ _) hB)
    (grossOut_le_reserveOut _ _ _)

/-- The five-step net output preserves the reserve product: fees and floor
division only reduce the output below the ideal constant-product value. -/
lemma specNetOut_invariant (amountIn reserveIn reserveOut totalFee weightIn : ℕ) :
    reserveIn * reserveOut ≤
      (reserveIn + amountIn) *
        (reserveOut - specNetOut amountIn reserveIn reserveOut totalFee weightIn) := by
  have hB : 0 < BPS_DENOMINATOR := by norm_num [BPS_DENOMINATOR]
  simp only [specNetOut]
  set inFee := totalFee * weightIn / BPS_DENOMINATOR with hin
  set effIn := amountIn * (BPS_DENOMINATOR - inFee) / BPS_DENOMINATOR with heff
  set g := effIn * reserveOut / (reserveIn + effIn) with hg
  have h1 : effIn ≤ amountIn := mul_div_le_self_of_le _ _ _ (Nat.sub_le _ _) hB
  have h2 : g * (BPS_DENOMINATOR - (totalFee - inFee)) / BPS_DENOMINATOR ≤ g :=
    mul_div_le_self_of_le _ _ _ (Nat.sub_le _ _) hB
  calc reserveIn * reserveOut ≤ (reserveIn + effIn) * (reserveOut - g) :=
        cp_invariant effIn reserveIn reserveOut
    _ ≤ (reserveIn + amountIn) *
          (reserveOut - g * (BPS_DENOMINATOR - (totalFee - inFee)) / BPS_DENOMINATOR) :=
        Nat.mul_le_mul (Nat.add_le_add_left h1 _) (Nat.sub_le_sub_left h2 _)

/-- Claim C2: the reserve product never decreases across a swap quote: for the
no-fee `getAmountOut` and for the weighted-fee `calculateAmountOutWithFee`,
`(reserveIn + amountIn) * (reserveOut - amountOut) ≥ reserveIn * reserveOut`;
floor division rounds the output down, never favoring the trader.  The weight
bound `weightIn ≤ BPS_DENOMINATOR` is the data-model precondition
`wToken0 + wToken1 = BPS_DEN` under which the `ℕ` embedding agrees with the
source's signed `bigint` arithmetic. -/
theorem C2_reserve_product_non_decreasing :
    (∀ amountIn reserveIn reserveOut n, 0 < amountIn →
        getAmountOut amountIn reserveIn reserveOut = Except.ok n →
        reserveIn * reserveOut ≤ (reserveIn + amountIn) * (reserveOut - n)) ∧
    (∀ amountIn reserveIn reserveOut totalFeeBps weightIn n,
        0 < amountIn → weightIn ≤ BPS_DENOMINATOR →
        calculateAmountOutWithFee amountIn reserveIn reserveOut totalFeeBps weightIn =
          Except.ok n →
        reserveIn * reserveOut ≤ (reserveIn + amountIn) * (reserveOut - n)) := by
  constructor
  · intro amountIn reserveIn reserveOut n _ h
    simp only [getAmountOut] at h
    split_ifs at h
    all_goals simp only [reduceCtorEq, Except.ok.injEq] at h
    exact h ▸ cp_invariant amountIn reserveIn reserveOut
  · intro amountIn reserveIn reserveOut totalFeeBps weightIn n _ _ h
    exact amountOut_ok_eq_spec _ _ _ _ _ _ h ▸ specNetOut_invariant _ _ _ _ _

/-- Claim C2 witness. -/
theorem C2_reserve_product_witness :
    getAmountOut 10 100 100 = Except.ok 9 ∧ (100 * 100 ≤ (100 + 10) * (100 - 9)) ∧
    calculateAmountOutWithFee 10 100 100 300000 500000000 = Except.ok 7 ∧
    (100 * 100 ≤ (100 + 10) * (100 - 7)) :=
  ⟨by decide, C2_reserve_product_non_decreasing.1 10 100 100 9 (by decide) (by decide),
   by decide,
   C2_reserve_product_non_decreasing.2 10 100 100 300000 500000000 7
     (by decide) (by decide) (by decide)⟩

/-- Claim C10: the no-fee exact-output quote always suffices.  `getAmountIn`
rounds up by adding `1`, so feeding its quote back through `getAmountOut`
returns at least the requested output. -/
theorem C10_getAmountIn_round_trip (amountOut reserveIn reserveOut m out : ℕ)
    (_hy : 0 < amountOut) (hrIn : 0 < reserveIn) (hlt : amountOut < reserveOut)
    (hm : getAmountIn amountOut reserveIn reserveOut = Except.ok m)
    (hout : getAmountOut m reserveIn reserveOut = Except.ok out) :
    amountOut ≤ out := by
  simp only [getAmountIn] at hm
  simp only [getAmountOut] at hout
  split_ifs at hm with h1
  all_goals simp only [reduceCtorEq, Except.ok.injEq] at hm
  split_ifs at hout with h2
  all_goals simp only [reduceCtorEq, Except.ok.injEq] at hout
  push_neg at h1
  have hd : 0 < reserveOut - amountOut := by omega
  have hkey : reserveIn * amountOut < m * (reserveOut - amountOut) := by
    have : reserveIn * amountOut / (reserveOut - amountOut) < m := by omega
    exact (Nat.div_lt_iff_lt_mul hd).mp this
  subst hout
  rw [Nat.le_div_iff_mul_le (by omega : 0 < reserveIn + m)]
  zify [le_of_lt hlt] at hkey ⊢
  nlinarith [hkey]

/-- Claim C10 witness. -/
theorem C10_round_trip_witness :
    getAmountIn 1 100 100 = Except.ok 2 ∧ getAmountOut 2 100 100 = Except.ok 1 ∧
    (1 : ℕ) ≤ 1 :=
  ⟨by decide, by decide,
   C10_getAmountIn_round_trip 1 100 100 2 1 (by decide) (by decide) (by decide)
     (by decide) (by decide)⟩

/-- Claim C3 (counterexample): the round trip `calcIn (calcOut x)` can
undershoot `x` by far more than a few units.  At `x = 150`,
`reserveIn = 1000`, `reserveOut = 10`, zero fee and full input weight, both
calls succeed, `calcOut` returns `1`, and `calcIn 1` returns `112 < 150`. -/
theorem C3_counterexample :
    calculateAmountOutWithFee 150 1000 10 0 BPS_DENOMINATOR = Except.ok 1 ∧
    calculateAmountInWithFee 1 1000 10 0 BPS_DENOMINATOR = Except.ok 112 ∧
    (112 : ℕ) < 150 := by
  decide

/-- Claim C3 (amended): the composition in the opposite order never
undershoots: whenever `calculateAmountInWithFee amountOut` succeeds with quote
`m` and `calculateAmountOutWithFee m` succeeds, the produced output is at
least `amountOut` — the exact-output quote rounds every step up so that
rounding never favors the trader. -/
theorem C3_quote_covers_requested_output
    (amountOut reserveIn reserveOut totalFeeBps weightIn m out : ℕ)
    (_hw : weightIn ≤ BPS_DENOMINATOR)
    (hm : calculateAmountInWithFee amountOut reserveIn reserveOut totalFeeBps weightIn =
      Except.ok m)
    (hout : calculateAmountOutWithFee m reserveIn reserveOut totalFeeBps weightIn =
      Except.ok out) :
    amountOut ≤ out := by
  have hB : 0 < BPS_DENOMINATOR := by norm_num [BPS_DENOMINATOR]
  simp only [calculateAmountInWithFee] at hm
  simp only [calculateAmountOutWithFee] at hout
  set tf := min totalFeeBps (BPS_DENOMINATOR - 1) with htf
  set inFee := tf * weightIn / BPS_DENOMINATOR with hinFee
  set iM := BPS_DENOMINATOR - inFee with hiM
  set oM := BPS_DENOMINATOR - (tf - inFee) with hoM
  set g := (amountOut * BPS_DENOMINATOR + oM - 1) / oM with hgdef
  set a := (g * reserveIn + (reserveOut - g) - 1) / (reserveOut - g) with hadef
  split_ifs at hm with ha hb hc hd
  all_goals simp only [reduceCtorEq, Except.ok.injEq] at hm
  set effIn := m * iM / BPS_DENOMINATOR with heff
  split_ifs at hout with he hf
  all_goals simp only [reduceCtorEq, Except.ok.injEq] at hout
  push_neg at ha
  have hoMpos : 0 < oM := by omega
  have hiMpos : 0 < iM := by omega
  have hglt : g < reserveOut := by omega
  have f4 : amountOut * BPS_DENOMINATOR ≤ g * oM := le_ceilDiv_mul _ _ hoMpos
  have f5 : g * reserveIn ≤ a * (reserveOut - g) := le_ceilDiv_mul _ _ (by omega)
  have f6 : a * BPS_DENOMINATOR ≤ m * iM := by
    have h := le_ceilDiv_mul (a * BPS_DENOMINATOR) iM hiMpos
    rwa [hm] at h
  have f7 : a ≤ effIn := by
    rw [heff]
    exact (Nat.le_div_iff_mul_le hB).mpr f6
  have f8 : g ≤ a * reserveOut / (reserveIn + a) := by
    rw [Nat.le_div_iff_mul_le (Nat.add_pos_left (Nat.pos_of_ne_zero ha.1) a)]
    zify [le_of_lt hglt] at f5 ⊢
    nlinarith [f5]
  have f10 : g ≤ effIn * reserveOut / (reserveIn + effIn) :=
    f8.trans (grossOut_mono reserveIn reserveOut f7)
  have f11 : amountOut ≤ g * oM / BPS_DENOMINATOR :=
    (Nat.le_div_iff_mul_le hB).mpr f4
  subst hout
  exact f11.trans (Nat.div_le_div_right (Nat.mul_le_mul_right _ f10))

/-- Claim C3 witness. -/
theorem C3_quote_covers_witness :
    calculateAmountInWithFee 1 100 100 300000 500000000 = Except.ok 4 ∧
    calculateAmountOutWithFee 4 100 100 300000 500000000 = Except.ok 1 ∧
    (1 : ℕ) ≤ 1 :=
  ⟨by decide, by decide,
   C3_quote_covers_requested_output 1 100 100 300000 500000000 4 1
     (by decide) (by decide) (by decide)⟩

/-- Claim C8: the applied fee is capped at `BPS_DEN - 1` before the split, so
with `weightIn ≤ BPS_DEN` both fee-side divisors `BPS_DEN - inFee` and
`BPS_DEN - outFee` stay strictly positive and the `Fee too high` error
branches of `calculateAmountInWithFee` can never be taken. -/
theorem C8_fee_cap_no_div_by_zero (totalFeeBps weightIn : ℕ)
    (hw : weightIn ≤ BPS_DENOMINATOR) :
    0 < BPS_DENOMINATOR - inFeeOf totalFeeBps weightIn ∧
    0 < BPS_DENOMINATOR -
          (min totalFeeBps (BPS_DENOMINATOR - 1) - inFeeOf totalFeeBps weightIn) ∧
    ∀ amountOut reserveIn reserveOut,
      calculateAmountInWithFee amountOut reserveIn reserveOut totalFeeBps weightIn ≠
        Except.error "Fee too high" := by
  have hB : 0 < BPS_DENOMINATOR := by norm_num [BPS_DENOMINATOR]
  have hcap : min totalFeeBps (BPS_DENOMINATOR - 1) ≤ BPS_DENOMINATOR - 1 :=
    min_le_right _ _
  have hIn : inFeeOf totalFeeBps weightIn ≤ min totalFeeBps (BPS_DENOMINATOR - 1) := by
    unfold inFeeOf
    exact mul_div_le_self_of_le _ _ _ hw hB
  refine ⟨by omega, by omega, ?_⟩
  intro amountOut reserveIn reserveOut
  simp only [calculateAmountInWithFee]
  unfold inFeeOf at hIn
  split_ifs with h1 h2 h3 h4
  · decide
  · have hlt : min totalFeeBps (BPS_DENOMINATOR - 1) -
        min totalFeeBps (BPS_DENOMINATOR - 1) * weightIn / BPS_DENOMINATOR <
          BPS_DENOMINATOR :=
      lt_of_le_of_lt (le_trans (Nat.sub_le _ _) hcap) (by omega)
    exact absurd (Nat.sub_eq_zero_iff_le.mp h2) (not_le.mpr hlt)
  · decide
  · have hlt : min totalFeeBps (BPS_DENOMINATOR - 1) * weightIn / BPS_DENOMINATOR <
        BPS_DENOMINATOR :=
      lt_of_le_of_lt (le_trans hIn hcap) (by omega)
    exact absurd (Nat.sub_eq_zero_iff_le.mp h4) (not_le.mpr hlt)
  · simp

/-- Claim C8 witness. -/
theorem C8_fee_cap_witness :
    calculateAmountInWithFee 5 100 100 2000000000 1000000000 ≠
      Except.error "Fee too high" :=
  (C8_fee_cap_no_div_by_zero 2000000000 1000000000 (by decide)).2.2 5 100 100

section DecayLemmas

/-- Scaling by the floored fixed-point factor `P / q` never exceeds the ideal
quotient: `a * (P / q) / P ≤ a / q`. -/
lemma scaled_decay_le (a P q : ℕ) (hP : 0 < P) :
    a * (P / q) / P ≤ a / q := by
  calc a * (P / q) / P ≤ a * P / q / P :=
        Nat.div_le_div_right (Nat.mul_div_le_mul_div_assoc a P q)
    _ = a * P / (q * P) := Nat.div_div_eq_div_mul _ _ _
    _ = a * P / (P * q) := by rw [Nat.mul_comm q P]
    _ = a * P / P / q := (Nat.div_div_eq_div_mul _ _ _).symm
    _ = a / q := by rw [Nat.mul_div_cancel a hP]

/-- Scaling by the floored fixed-point factor `P / q` loses at most
`a / P + 2` compared with the ideal quotient `a / q`. -/
lemma scaled_decay_lower (a P q : ℕ) (hP : 0 < P) (hq : 0 < q) :
    a / q ≤ a * (P / q) / P + a / P + 2 := by
  rcases Nat.eq_zero_or_pos a with rfl | ha
  · simp
  have B1 : a / q * q ≤ a := Nat.div_mul_le_self a q
  have B2 : P < q * (P / q + 1) := by
    have e1 := Nat.div_add_mod P q
    have e2 : P % q < q := Nat.mod_lt _ hq
    have e3 : q * (P / q + 1) = q * (P / q) + q := by ring
    omega
  have B3 : a * (P / q) < P * (a * (P / q) / P + 1) := by
    have e1 := Nat.div_add_mod (a * (P / q)) P
    have e2 : a * (P / q) % P < P := Nat.mod_lt _ hP
    have e3 : P * (a * (P / q) / P + 1) = P * (a * (P / q) / P) + P := by ring
    omega
  have B4 : a < P * (a / P + 1) := by
    have e1 := Nat.div_add_mod a P
    have e2 : a % P < P := Nat.mod_lt _ hP
    have e3 : P * (a / P + 1) = P * (a / P) + P := by ring
    omega
  have C1 : a / q * q * P ≤ a * P := Nat.mul_le_mul_right P B1
  have C2 : a * P < a * (q * (P / q + 1)) := mul_lt_mul_of_pos_left B2 ha
  have C4 : a * (P / q) * q < P * (a * (P / q) / P + 1) * q :=
    mul_lt_mul_of_pos_right B3 hq
  have C5 : a * q < P * (a / P + 1) * q := mul_lt_mul_of_pos_right B4 hq
  have final : a / q * (q * P) <
      (a * (P / q) / P + a / P + 2) * (q * P) := by nlinarith [C1, C2, C4, C5]
  have hlt : a / q < a * (P / q) / P + a / P + 2 :=
    lt_of_mul_lt_mul_right final (Nat.zero_le _)
  omega

/-- Mirror decay after exactly one half-life is exact halving (floored). -/
lemma decay_one_halfLife (a : ℕ) (h : Int) (hh : 0 < h) :
    calculateDecayedActivity a h h = a / 2 := by
  have he : ¬(h ≤ 0 ∨ h ≤ 0) := by omega
  simp only [calculateDecayedActivity, if_neg he]
  rw [Int.ediv_self (ne_of_gt hh)]
  norm_num [PRECISION]
  rw [show (1000000000000000000 : ℕ) = 500000000000000000 * 2 by norm_num,
    Nat.mul_comm a 500000000000000000,
    show (500000000000000000 * 2 : ℕ) = 500000000000000000 * 2 from rfl,
    Nat.mul_div_mul_left a 2 (by norm_num : (0:ℕ) < 500000000000000000)]

/-- Mirror decay after exactly ten half-lives is exact division by `1024`. -/
lemma decay_ten_halfLives (a : ℕ) (h : Int) (hh : 0 < h) :
    calculateDecayedActivity a (10 * h) h = a / 1024 := by
  have he : ¬(10 * h ≤ 0 ∨ h ≤ 0) := by
    push_neg
    constructor <;> omega
  simp only [calculateDecayedActivity, if_neg he]
  rw [Int.mul_ediv_cancel _ (ne_of_gt hh)]
  rw [show PRECISION / 2 ^ Int.toNat 10 = 976562500000000 by decide]
  rw [show PRECISION = 976562500000000 * 1024 by norm_num [PRECISION],
    Nat.mul_comm a 976562500000000,
    Nat.mul_div_mul_left a 1024 (by norm_num : (0:ℕ) < 976562500000000)]

end DecayLemmas

/-- Claim C4: `activityToFeeBps` equals `min (activity / 1e16) maxCapBps`
with a truncating division, and in particular never exceeds `maxCapBps`.  The
bounds `activity / 1e16 < 2⁵³` and `maxCapBps < 2⁵³` delimit the range in
which the source's `Number(...)` conversion of the `bigint` quotient is exact
(they comfortably cover the spec's `activity = 1e30`). -/
theorem C4_activity_to_fee_cap (activity maxCapBps : ℕ)
    (_hact : activity / ACTIVITY_SCALE < 2 ^ 53) (_hcap : maxCapBps < 2 ^ 53) :
    activityToFeeBps activity maxCapBps = min (activity / 10 ^ 16) maxCapBps ∧
    activityToFeeBps activity maxCapBps ≤ maxCapBps :=
  ⟨rfl, min_le_right _ _⟩

/-- Claim C4 witness, at the spec's `activity = 1e30`. -/
theorem C4_activity_to_fee_cap_witness :
    activityToFeeBps (10 ^ 30) 1000000000 = min (10 ^ 30 / 10 ^ 16) 1000000000 ∧
    activityToFeeBps (10 ^ 30) 1000000000 ≤ 1000000000 :=
  C4_activity_to_fee_cap (10 ^ 30) 1000000000 (by norm_num [ACTIVITY_SCALE])
    (by norm_num)

/-- Claim C5: with the dynamic fee disabled, `simulateFeeAfterSwap` reports a
zero fee and does not advance activity (all four returned fields are zero),
and `getCurrentDynamicFee` returns `0`, regardless of any prior state,
amounts, or timestamps. -/
theorem C5_disabled_reports_zero (state : DynamicFeeState) (config : DynamicFeeConfig)
    (amountOut reserveOut : ℕ) (currentTimestamp : Int)
    (latestEvent : Option DynamicFeeState) (ts : Int)
    (hdis : config.enabled = false) :
    simulateFeeAfterSwap state config amountOut reserveOut currentTimestamp =
      { newDynBps := 0, newActivity := 0, pulse := 0, decayedActivity := 0 } ∧
    getCurrentDynamicFee config latestEvent ts = 0 := by
  constructor
  · simp [simulateFeeAfterSwap, hdis]
  · simp [getCurrentDynamicFee, hdis]

/-- Claim C5 witness: a state with large prior activity, disabled config. -/
theorem C5_disabled_witness :
    simulateFeeAfterSwap ⟨77, 12345, 50⟩ ⟨500, 300, false⟩ 100 1000 9999 =
      { newDynBps := 0, newActivity := 0, pulse := 0, decayedActivity := 0 } ∧
    getCurrentDynamicFee ⟨500, 300, false⟩ (some ⟨77, 12345, 50⟩) 9999 = 0 :=
  C5_disabled_reports_zero ⟨77, 12345, 50⟩ ⟨500, 300, false⟩ 100 1000 9999
    (some ⟨77, 12345, 50⟩) 9999 rfl

/-- Claim C6: the authoritative engine's decay (modelled from the spec as a
deterministic integer fixed-point power-of-two approximation, since the
authoritative engine is not part of src/) returns `activity` unchanged
whenever `elapsed ≤ 0` or `halfLife ≤ 0`, and at `k ≥ 1` whole half-lives it
computes `activity · 2⁻ᵏ` to within the fixed-point resolution: never above
the exact value `⌊activity / 2ᵏ⌋`, and below it by at most
`activity / PRECISION + 2`. -/
theorem C6_decay_fixed_point :
    (∀ (activity : ℕ) (elapsed halfLife : Int), elapsed ≤ 0 ∨ halfLife ≤ 0 →
        authoritativeDecay activity elapsed halfLife = activity) ∧
    (∀ (activity k : ℕ) (halfLife : Int), 0 < k → 0 < halfLife →
        authoritativeDecay activity ((k : Int) * halfLife) halfLife ≤ activity / 2 ^ k ∧
        activity / 2 ^ k ≤
          authoritativeDecay activity ((k : Int) * halfLife) halfLife +
            activity / PRECISION + 2) := by
  constructor
  · intro activity elapsed halfLife hcond
    simp [authoritativeDecay, if_pos hcond]
  · intro activity k halfLife hk hh
    have hP : 0 < PRECISION := by norm_num [PRECISION]
    have he : ¬((k : Int) * halfLife ≤ 0 ∨ halfLife ≤ 0) := by
      push_neg
      refine ⟨mul_pos (by exact_mod_cast hk) hh, hh⟩
    simp only [authoritativeDecay, if_neg he]
    rw [Int.mul_ediv_cancel _ (ne_of_gt hh), Int.toNat_natCast]
    exact ⟨scaled_decay_le _ _ _ hP,
      scaled_decay_lower _ _ _ hP (Nat.pos_pow_of_pos k (by norm_num))⟩

/-- Claim C6 witness. -/
theorem C6_decay_fixed_point_witness :
    authoritativeDecay 1000 0 300 = 1000 ∧
    authoritativeDecay 1000 (1 * 300) 300 ≤ 1000 / 2 ∧
    1000 / 2 ≤ authoritativeDecay 1000 (1 * 300) 300 + 1000 / PRECISION + 2 := by
  refine ⟨C6_decay_fixed_point.1 1000 0 300 (Or.inl le_rfl), ?_, ?_⟩
  · exact (C6_decay_fixed_point.2 1000 1 300 (by norm_num) (by norm_num)).1
  · exact (C6_decay_fixed_point.2 1000 1 300 (by norm_num) (by norm_num)).2

/-- Claim C7 (counterexample): after exactly one half-life, activity `1`
decays to `0`, which is below `0.4 · activity`, refuting the claimed interval
`[0.4a, 0.6a]` for every positive activity. -/
theorem C7_counterexample :
    calculateDecayedActivity 1 300 300 = 0 ∧
    10 * calculateDecayedActivity 1 300 300 < 4 * 1 := by
  decide

/-- Claim C7 (amended): for every `activity > 0` other than `1` and `3` and
every `halfLife > 0`, decaying for exactly one half-life lands in
`[0.4 · activity, 0.6 · activity]` (the floored halving `⌊activity/2⌋` drops
below `0.4 · activity` exactly at activity `1` and `3`), and for every
`activity > 0` decaying for ten half-lives lands strictly below
`0.01 · activity` (stated over integers by cross-multiplication). -/
theorem C7_decay_window (activity : ℕ) (halfLife : Int) (hh : 0 < halfLife) :
    (0 < activity → activity ≠ 1 → activity ≠ 3 →
      4 * activity ≤ 10 * calculateDecayedActivity activity halfLife halfLife ∧
      10 * calculateDecayedActivity activity halfLife halfLife ≤ 6 * activity) ∧
    (0 < activity →
      100 * calculateDecayedActivity activity (10 * halfLife) halfLife < activity) := by
  rw [decay_one_halfLife activity halfLife hh, decay_ten_halfLives activity halfLife hh]
  constructor
  · intro ha h1 h3
    omega
  · intro ha
    omega

/-- Claim C7 witness. -/
theorem C7_decay_window_witness :
    4 * 1000 ≤ 10 * calculateDecayedActivity 1000 300 300 ∧
    10 * calculateDecayedActivity 1000 300 300 ≤ 6 * 1000 ∧
    100 * calculateDecayedActivity 1000 (10 * 300) 300 < 1000 :=
  ⟨((C7_decay_window 1000 300 (by norm_num)).1 (by norm_num) (by norm_num) (by norm_num)).1,
   ((C7_decay_window 1000 300 (by norm_num)).1 (by norm_num) (by norm_num) (by norm_num)).2,
   (C7_decay_window 1000 300 (by norm_num)).2 (by norm_num)⟩

